import Mathlib

/-!
Shallow embedding of the `stdutil/result` Go package (files `main.go`,
`result.go` and the generic-wrapper file) together with proofs about the
claims of its specification.

Conventions of the embedding:
* Go strings are Lean `String`; Go pointer-typed optional fields (`*string`,
  `*int`, …) are `Option` values (nil = `none`).
* Go printf-style methods (`AddInfo(fmtMsg, a...)` …) receive the message
  already formatted: `fmt.Sprintf` interpolation is outside the core logic,
  every method treats the formatted text opaquely, so each embedded method
  takes the resulting `String` directly.
* `runtime.GOOS == "windows"` and the `runtime.Caller` operation-name
  detection are inputs of the environment; `InitResult` takes them as
  explicit parameters (`osWin`, and `callerOp` = the namespace-stripped
  caller name, `none` when detection fails).
* The external collaborator `github.com/stdutil/log` is not part of this
  repository; it is modelled from the interface the spec requires of it
  (an ordered note store with severity tags, a prefix stamped on each note,
  list append, and per-note / whole-log string rendering).
* Field names `Prefix`/`Type` of the Go sources are rendered `Pfx`/`Typ`.
-/

/-- Severity tags of the external message-log collaborator:
Info, Warning, Error, Success and plain application messages. -/
inductive NoteType where
  | Info
  | Warning
  | Error
  | Success
  | App
deriving DecidableEq, Repr

/-- Modelled from the spec: one severity-tagged note of the external
`log.Log` collaborator (`log.LogInfo`), carrying its message and the
log prefix that was current when it was appended. -/
structure LogInfo where
  Typ : NoteType
  Message : String
  Pfx : String
deriving DecidableEq, Repr

/-- Modelled from the spec: the external `log.Log` collaborator — a mutable
prefix plus an ordered collection of severity-tagged notes. -/
structure Log where
  Pfx : String := ""
  notes : List LogInfo := []
deriving DecidableEq, Repr

/-- Modelled from the spec: the collaborator renders each note with the
note's stored prefix prepended to its message. -/
def LogInfo.ToString (n : LogInfo) : String :=
  n.Pfx ++ n.Message

/-- Modelled from the spec: `log.Log.Notes()` enumerates current notes in
insertion order. -/
def Log.Notes (l : Log) : List LogInfo :=
  l.notes

/-- Modelled from the spec: `log.Log.Append(n)` appends a pre-built note. -/
def Log.Append (l : Log) (n : LogInfo) : Log :=
  { l with notes := l.notes ++ [n] }

/-- Modelled from the spec: `log.Log.AddInfo(msg)` appends an Info note
stamped with the log's current prefix. -/
def Log.AddInfo (l : Log) (msg : String) : Log :=
  l.Append ⟨NoteType.Info, msg, l.Pfx⟩

/-- Modelled from the spec: `log.Log.AddWarning(msg)` appends a Warning
note stamped with the log's current prefix. -/
def Log.AddWarning (l : Log) (msg : String) : Log :=
  l.Append ⟨NoteType.Warning, msg, l.Pfx⟩

/-- Modelled from the spec: `log.Log.AddError(msg)` appends an Error note
stamped with the log's current prefix. -/
def Log.AddError (l : Log) (msg : String) : Log :=
  l.Append ⟨NoteType.Error, msg, l.Pfx⟩

/-- Modelled from the spec: `log.Log.AddSuccess(msg)` appends a Success
note stamped with the log's current prefix. -/
def Log.AddSuccess (l : Log) (msg : String) : Log :=
  l.Append ⟨NoteType.Success, msg, l.Pfx⟩

/-- Modelled from the spec: `log.Log.AddAppMsg(msg)` appends a plain
application note stamped with the log's current prefix. -/
def Log.AddAppMsg (l : Log) (msg : String) : Log :=
  l.Append ⟨NoteType.App, msg, l.Pfx⟩

/-- Modelled from the spec: `log.Log.ToString()` renders all notes as a
single display string. -/
def Log.ToString (l : Log) : String :=
  String.intercalate "\n" (l.notes.map LogInfo.ToString)

/-- Status is a Go string type (`type Status string`, `main.go`). -/
abbrev Status := String

/-- Result embeds the `Result` struct of `main.go`. Defaults are the Go
zero values. `Tag` points to an `interface{}` value that no core operation
ever inspects, so it is embedded as an opaque presence marker. -/
structure Result where
  Messages : List String := []
  Status : String := ""
  Operation : String := ""
  TaskID : Option String := none
  WorkerID : Option String := none
  FocusControl : Option String := none
  Page : Option Int := none
  PageCount : Option Int := none
  PageSize : Option Int := none
  Tag : Option Unit := none
  Pfx : String := ""
  ln : Log := {}
  eventVerb : String := ""
  osIsWin : Bool := false
  useOperationInMsg : Bool := false
  initFc : String := ""
deriving DecidableEq, Repr

/-- ResultAny embeds the generic wrapper `ResultAny[T]` of `main.go`
(Go struct embedding is rendered as an explicit `result` field). -/
structure ResultAny (T : Type) where
  result : Result
  Data : T

/-- InitResultParam embeds the option-parameter struct of `main.go`. -/
structure InitResultParam where
  EventVerb : String := ""
  Status : Status := ""
  Pfx : String := ""
  Message : String := ""
  InitialFocusID : String := ""
  UseOperationInMsg : Bool := false
deriving DecidableEq, Repr

namespace Result

/-- updateMessage embeds `updateMessage` (`result.go`): rebuild the
`Messages` cache from the current notes of the internal log. -/
def updateMessage (r : Result) : Result :=
  { r with Messages := r.ln.Notes.map LogInfo.ToString }

/-- SetPfx embeds `SetPrefix` (`result.go`): set the prefix on the
envelope and on its message log. -/
def SetPfx (r : Result) (pfx : String) : Result :=
  { r with ln := { r.ln with Pfx := pfx }, Pfx := pfx }

/-- SetFocusControl embeds `SetFocusControl` (`result.go`): replace the
focus control and the initial anchor, or append `initFc ++ "_" ++ ctrl`
without touching the anchor. -/
def SetFocusControl (r : Result) (ctrl : String) (appendOnly : Bool) : Result :=
  if !appendOnly then
    { r with initFc := ctrl, FocusControl := some ctrl }
  else
    { r with FocusControl := some (r.initFc ++ "_" ++ ctrl) }

/-- ResetFocusControl embeds `ResetFocusControl` (`result.go`). -/
def ResetFocusControl (r : Result) : Result :=
  { r with FocusControl := some r.initFc }

/-- opMsg embeds the conditional repeated at the top of `AddInfo`,
`AddWarning`, `AddError` and `AddSuccess` (`result.go`): prepend
`" <operation>: "` when the use-operation flag is on and an operation
name is known. -/
def opMsg (r : Result) (msg : String) : String :=
  if r.useOperationInMsg ∧ r.Operation ≠ "" then
    " " ++ r.Operation ++ ": " ++ msg
  else
    msg

/-- AddInfo embeds `AddInfo` (`result.go`). -/
def AddInfo (r : Result) (msg : String) : Result :=
  updateMessage { r with ln := r.ln.AddInfo (r.opMsg msg) }

/-- AddWarning embeds `AddWarning` (`result.go`). -/
def AddWarning (r : Result) (msg : String) : Result :=
  updateMessage { r with ln := r.ln.AddWarning (r.opMsg msg) }

/-- AddError embeds `AddError` (`result.go`). -/
def AddError (r : Result) (msg : String) : Result :=
  updateMessage { r with ln := r.ln.AddError (r.opMsg msg) }

/-- AddSuccess embeds `AddSuccess` (`result.go`). -/
def AddSuccess (r : Result) (msg : String) : Result :=
  updateMessage { r with ln := r.ln.AddSuccess (r.opMsg msg) }

/-- AddRawMsg embeds `AddRawMsg` (`result.go`): append a plain
application message (no operation prefixing) and refresh the cache. -/
def AddRawMsg (r : Result) (msg : String) : Result :=
  updateMessage { r with ln := r.ln.AddAppMsg msg }

/-- fmtErr embeds `fmt.Sprintf("%s", err)` on an `error` value: a nil
error renders defensively (Go's fmt emits a `%!s(<nil>)` marker instead
of panicking), a non-nil error renders its message. -/
def fmtErr : Option String → String
  | none => "%!s(<nil>)"
  | some s => s

/-- AddErr embeds `AddErr` (`result.go`): `r.AddError("%s", err)`. -/
def AddErr (r : Result) (err : Option String) : Result :=
  r.AddError (fmtErr err)

/-- AddErrWithAlt embeds `AddErrWithAlt` (`result.go`). -/
def AddErrWithAlt (r : Result) (err : Option String) (altMsg : String) : Result :=
  match err with
  | some e => r.AddErr (some e)
  | none => if altMsg ≠ "" then r.AddError altMsg else r

/-- OK embeds the `OK` status predicate (`result.go`). -/
def OK (r : Result) : Bool :=
  r.Status == "OK"

/-- Valid embeds the `Valid` status predicate (`result.go`). -/
def Valid (r : Result) : Bool :=
  r.Status == "VALID"

/-- AddErrorWithAlt embeds `AddErrorWithAlt` (`result.go`): copy the
other result's notes when it is not OK/VALID, otherwise append a single
directly-built Error note when the alternate message is non-empty. -/
def AddErrorWithAlt (r : Result) (rs : Result) (altMsg : String) : Result :=
  if !(rs.OK || rs.Valid) then
    updateMessage { r with ln := rs.ln.Notes.foldl Log.Append r.ln }
  else if altMsg = "" then
    r
  else
    updateMessage { r with ln := r.ln.Append ⟨NoteType.Error, altMsg, r.ln.Pfx⟩ }

/-- AppendErr embeds `AppendErr` (`result.go`). -/
def AppendErr (r : Result) (rs : Result) (err : Option String) : Result :=
  Result.AddErr { r with ln := rs.ln.Notes.foldl Log.Append r.ln } err

/-- AppendError embeds `AppendError` (`result.go`). -/
def AppendError (r : Result) (rs : Result) (msg : String) : Result :=
  Result.AddError { r with ln := rs.ln.Notes.foldl Log.Append r.ln } msg

/-- AppendInfo embeds `AppendInfo` (`result.go`). -/
def AppendInfo (r : Result) (rs : Result) (msg : String) : Result :=
  Result.AddInfo { r with ln := rs.ln.Notes.foldl Log.Append r.ln } msg

/-- AppendWarning embeds `AppendWarning` (`result.go`). -/
def AppendWarning (r : Result) (rs : Result) (msg : String) : Result :=
  Result.AddWarning { r with ln := rs.ln.Notes.foldl Log.Append r.ln } msg

/-- Stuff embeds `Stuff` (`result.go`): copy the other result's notes
and refresh the cache. -/
def Stuff (r : Result) (rs : Result) : Result :=
  updateMessage { r with ln := rs.ln.Notes.foldl Log.Append r.ln }

/-- Return embeds `Return` (`result.go`): set the status and return the
mutated receiver (the argument has the `Status` string type, written
`String` here because inside this namespace `Status` names the field). -/
def Return (r : Result) (status : String) : Result :=
  { r with Status := status }

/-- lineTerm embeds the terminator choice inside `MessagesToString`
(`result.go`): CRLF on Windows, LF otherwise, from the `osIsWin` flag
fixed at construction time. -/
def lineTerm (r : Result) : String :=
  if r.osIsWin then "\r\n" else "\n"

/-- MessagesToString embeds `MessagesToString` (`result.go`): one cached
message is returned verbatim; two or more are concatenated through the
string builder, each followed by the terminator; an empty cache falls
back to the log's own rendering. -/
def MessagesToString (r : Result) : String :=
  match r.Messages with
  | [] => r.ln.ToString
  | [m] => m
  | m1 :: m2 :: rest =>
    (m1 :: m2 :: rest).foldl (fun sb v => sb ++ (v ++ r.lineTerm)) ""

end Result

/-- strToLower embeds `strings.ToLower` as a character-wise lowercase map
(kept at the character-list level so that proofs and concrete evaluation
can unfold it). -/
def strToLower (s : String) : String :=
  String.mk (s.data.map Char.toLower)

/-- detectedOp embeds the operation-name auto-detection of `InitResult`
(`result.go`): the namespace-stripped caller name is lower-cased; a failed
detection (`none`) leaves the operation empty. -/
def detectedOp : Option String → String
  | some nm => strToLower nm
  | none => ""

/-- InitResult embeds `InitResult` (`result.go`). `osWin` embeds
`runtime.GOOS == "windows"`; `callerOp` embeds the outcome of the
`runtime.Caller` detection; `irp` is the parameter record after all
options ran. Note that the plain-application routing branch appends to
the log directly without refreshing the `Messages` cache, exactly as the
source does. -/
def InitResult (osWin : Bool) (callerOp : Option String) (irp : InitResultParam) : Result :=
  let res : Result := { Status := "EXCEPTION", ln := {}, osIsWin := osWin, Messages := [] }
  let res := if irp.Status ≠ "" then { res with Status := irp.Status } else res
  let res := res.SetPfx irp.Pfx
  let res := { res with eventVerb := irp.EventVerb }
  let res := { res with initFc := irp.InitialFocusID }
  let res := res.SetFocusControl res.initFc false
  let res :=
    match callerOp with
    | some nm =>
      let res := { res with Operation := strToLower nm }
      if res.eventVerb = "" then { res with eventVerb := res.Operation } else res
    | none => res
  if irp.Message ≠ "" then
    let msg :=
      if irp.UseOperationInMsg ∧ res.Operation ≠ "" then
        " " ++ res.Operation ++ ": " ++ irp.Message
      else irp.Message
    match irp.Status with
    | "OK" | "VALID" | "YES" => res.AddInfo msg
    | "EXCEPTION" | "INVALID" | "NO" => res.AddError msg
    | _ => { res with ln := res.ln.AddAppMsg msg }
  else res

namespace ResultAny

/-- AddInfo embeds the wrapper's `AddInfo` (generic-wrapper file). -/
def AddInfo {T : Type} (r : ResultAny T) (msg : String) : ResultAny T :=
  { result := r.result.AddInfo msg, Data := r.Data }

/-- AddWarning embeds the wrapper's `AddWarning`. -/
def AddWarning {T : Type} (r : ResultAny T) (msg : String) : ResultAny T :=
  { result := r.result.AddWarning msg, Data := r.Data }

/-- AddError embeds the wrapper's `AddError`. -/
def AddError {T : Type} (r : ResultAny T) (msg : String) : ResultAny T :=
  { result := r.result.AddError msg, Data := r.Data }

/-- AddErr embeds the wrapper's `AddErr`. -/
def AddErr {T : Type} (r : ResultAny T) (err : Option String) : ResultAny T :=
  { result := r.result.AddErr err, Data := r.Data }

/-- AddSuccess embeds the wrapper's `AddSuccess`. -/
def AddSuccess {T : Type} (r : ResultAny T) (msg : String) : ResultAny T :=
  { result := r.result.AddSuccess msg, Data := r.Data }

/-- Stuff embeds the wrapper's `Stuff`. -/
def Stuff {T : Type} (r : ResultAny T) (rs : Result) : ResultAny T :=
  { result := r.result.Stuff rs, Data := r.Data }

/-- AddErrWithAlt embeds the wrapper's `AddErrWithAlt`. -/
def AddErrWithAlt {T : Type} (r : ResultAny T) (err : Option String) (altMsg : String) : ResultAny T :=
  { result := r.result.AddErrWithAlt err altMsg, Data := r.Data }

/-- AddErrorWithAlt embeds the wrapper's `AddErrorWithAlt`. -/
def AddErrorWithAlt {T : Type} (r : ResultAny T) (rs : Result) (altMsg : String) : ResultAny T :=
  { result := r.result.AddErrorWithAlt rs altMsg, Data := r.Data }

/-- Return embeds the wrapper's `Return`. -/
def Return {T : Type} (r : ResultAny T) (status : Status) : ResultAny T :=
  { result := r.result.Return status, Data := r.Data }

end ResultAny

/-- splitGo scans a character list and cuts it at every leftmost
occurrence of the separator, accumulating the current segment in reverse;
it formalizes the "re-splitting on the terminator" reading of the
specification's round-trip property. The fuel argument only forces
structural recursion; `splitSep` supplies enough of it for the whole
input, and `splitGo_fuel_irrel` shows any sufficient amount agrees. -/
def splitGo (sep : List Char) : Nat → List Char → List Char → List (List Char)
  | _, [], acc => [acc.reverse]
  | 0, c :: cs, acc => [acc.reverse ++ (c :: cs)]
  | fuel + 1, c :: cs, acc =>
    if (c :: cs).take sep.length = sep then
      acc.reverse :: splitGo sep fuel ((c :: cs).drop sep.length) []
    else
      splitGo sep fuel cs (c :: acc)

/-- splitSep splits a character list on a separator, from an empty
accumulator. -/
def splitSep (sep l : List Char) : List (List Char) :=
  splitGo sep l.length l []

/-- strSplit splits a string on a separator string, character-wise. -/
def strSplit (sep s : String) : List String :=
  (splitSep sep.data s.data).map String.mk

/-- joinTrail concatenates segments, each followed by the separator: the
character-level shape produced by the builder loop of `MessagesToString`. -/
def joinTrail (sep : List Char) : List (List Char) → List Char
  | [] => []
  | m :: ms => m ++ sep ++ joinTrail sep ms

/-- MutOp enumerates the mutating envelope operations the cache invariant
ranges over: the add family, the raw/error adders, and the append/merge
family of `result.go`. -/
inductive MutOp where
  | info (msg : String)
  | warning (msg : String)
  | error (msg : String)
  | success (msg : String)
  | raw (msg : String)
  | err (e : Option String)
  | errWithAlt (e : Option String) (alt : String)
  | errorWithAlt (rs : Result) (alt : String)
  | appendErr (rs : Result) (e : Option String)
  | appendError (rs : Result) (msg : String)
  | appendInfo (rs : Result) (msg : String)
  | appendWarning (rs : Result) (msg : String)
  | stuff (rs : Result)

/-- applyOp runs one mutating operation on an envelope. -/
def applyOp (r : Result) : MutOp → Result
  | .info msg => r.AddInfo msg
  | .warning msg => r.AddWarning msg
  | .error msg => r.AddError msg
  | .success msg => r.AddSuccess msg
  | .raw msg => r.AddRawMsg msg
  | .err e => r.AddErr e
  | .errWithAlt e alt => r.AddErrWithAlt e alt
  | .errorWithAlt rs alt => r.AddErrorWithAlt rs alt
  | .appendErr rs e => r.AppendErr rs e
  | .appendError rs msg => r.AppendError rs msg
  | .appendInfo rs msg => r.AppendInfo rs msg
  | .appendWarning rs msg => r.AppendWarning rs msg
  | .stuff rs => r.Stuff rs

/-- cacheOK states the specification's cache invariant: the `Messages`
cache equals the rendered form of the internal message log, entry for
entry, in order. -/
def cacheOK (r : Result) : Prop :=
  r.Messages = r.ln.Notes.map LogInfo.ToString

/-- initBase is the explicit record form of the envelope `InitResult`
builds before routing the initial message; `initResult_eq` proves it equal
to the source construction. -/
def initBase (osWin : Bool) (callerOp : Option String) (irp : InitResultParam) : Result :=
  { Messages := []
    Status := if irp.Status ≠ "" then irp.Status else "EXCEPTION"
    Operation := detectedOp callerOp
    FocusControl := some irp.InitialFocusID
    Pfx := irp.Pfx
    ln := { Pfx := irp.Pfx, notes := [] }
    eventVerb := if callerOp.isSome ∧ irp.EventVerb = "" then detectedOp callerOp else irp.EventVerb
    osIsWin := osWin
    useOperationInMsg := false
    initFc := irp.InitialFocusID }

/-- routedMsg is the configured initial message after the optional
`" <operation>: "` prefixing step of `InitResult`. -/
def routedMsg (callerOp : Option String) (irp : InitResultParam) : String :=
  if irp.UseOperationInMsg ∧ detectedOp callerOp ≠ "" then
    " " ++ detectedOp callerOp ++ ": " ++ irp.Message
  else irp.Message

/-- c1Env is a concrete envelope built with an initial message and the
default (empty) status, so the constructor routes the message through the
plain-application branch. -/
def c1Env : Result :=
  InitResult false none { Message := "m" }

/-- c2Env is a concrete envelope built with the use-operation-in-message
option enabled and a detected operation name. -/
def c2Env : Result :=
  InitResult false (some "DoIt") { UseOperationInMsg := true }

/-- c5Env is a concrete envelope whose cache holds two messages, on a
non-Windows platform. -/
def c5Env : Result :=
  { Messages := ["a", "b"], osIsWin := false }

/-- sampleRecv is a concrete receiver envelope holding one note. -/
def sampleRecv : Result :=
  { Pfx := "p", ln := { Pfx := "p", notes := [⟨NoteType.Info, "a", "p"⟩] } }

/-- sampleFail is a concrete envelope in a failure state with two notes. -/
def sampleFail : Result :=
  { Status := "NO", ln := { notes := [⟨NoteType.Error, "e1", ""⟩, ⟨NoteType.Warning, "e2", ""⟩] } }

/-- sampleOkRes is a concrete envelope in the OK state with no notes. -/
def sampleOkRes : Result :=
  { Status := "OK" }

/-! Helper lemmas shared by the claim theorems. -/

/-- Appending a list of notes through repeated `Log.Append` concatenates
them onto the note list and keeps the prefix. -/
theorem foldl_Append (ns : List LogInfo) (l : Log) :
    ns.foldl Log.Append l = { l with notes := l.notes ++ ns } := by
  induction ns generalizing l with
  | nil => simp
  | cons n ns ih =>
    simp only [List.foldl_cons, ih, Log.Append]
    simp

/-- updateMessage always (re)establishes the cache invariant. -/
theorem cacheOK_updateMessage (r : Result) : cacheOK r.updateMessage :=
  rfl

/-- Every mutating operation preserves the cache invariant. -/
theorem cacheOK_applyOp (r : Result) (op : MutOp) (h : cacheOK r) :
    cacheOK (applyOp r op) := by
  cases op with
  | info msg => exact cacheOK_updateMessage _
  | warning msg => exact cacheOK_updateMessage _
  | error msg => exact cacheOK_updateMessage _
  | success msg => exact cacheOK_updateMessage _
  | raw msg => exact cacheOK_updateMessage _
  | err e => exact cacheOK_updateMessage _
  | errWithAlt e alt =>
    cases e with
    | some v => exact cacheOK_updateMessage _
    | none =>
      simp only [applyOp, Result.AddErrWithAlt]
      split
      · exact cacheOK_updateMessage _
      · exact h
  | errorWithAlt rs alt =>
    simp only [applyOp, Result.AddErrorWithAlt]
    split
    · exact cacheOK_updateMessage _
    · split
      · exact h
      · exact cacheOK_updateMessage _
  | appendErr rs e => exact cacheOK_updateMessage _
  | appendError rs msg => exact cacheOK_updateMessage _
  | appendInfo rs msg => exact cacheOK_updateMessage _
  | appendWarning rs msg => exact cacheOK_updateMessage _
  | stuff rs => exact cacheOK_updateMessage _

/-- Folding a sequence of mutating operations preserves the invariant. -/
theorem cacheOK_foldl (ops : List MutOp) (r : Result) (h : cacheOK r) :
    cacheOK (ops.foldl applyOp r) := by
  induction ops generalizing r with
  | nil => exact h
  | cons op ops ih => exact ih _ (cacheOK_applyOp r op h)

/-- C6: for every envelope, `SetFocusControl("x", appendOnly=false)`
followed by `SetFocusControl("y", appendOnly=true)` yields focus control
`"x_y"` while the stored initial anchor stays `"x"`, and a subsequent
`ResetFocusControl()` restores the focus control to `"x"`. -/
theorem c6_focus_control (r : Result) :
    ((r.SetFocusControl "x" false).SetFocusControl "y" true).FocusControl = some "x_y"
  ∧ ((r.SetFocusControl "x" false).SetFocusControl "y" true).initFc = "x"
  ∧ (((r.SetFocusControl "x" false).SetFocusControl "y" true).ResetFocusControl).FocusControl
      = some "x" :=
  ⟨rfl, rfl, rfl⟩

/-- C8: calling `AddErr` with a nil error never crashes: the code routes
the nil value through fmt's defensive `%s` rendering, so the call returns
normally, having appended exactly one Error-severity note. -/
theorem c8_addErr_nil_defensive (r : Result) :
    ∃ n : LogInfo, (r.AddErr none).ln.Notes = r.ln.Notes ++ [n]
      ∧ n.Typ = NoteType.Error := by
  refine ⟨⟨NoteType.Error, r.opMsg (Result.fmtErr none), r.ln.Pfx⟩, ?_, rfl⟩
  simp [Result.AddErr, Result.AddError, Result.updateMessage, Log.AddError, Log.Append, Log.Notes]

/-- C9: every mutator of the generic wrapper delegates to the embedded
`Result` and returns a new wrapper whose `Data` payload equals the
receiver's payload. -/
theorem c9_wrapper_delegation (T : Type) (r : ResultAny T) (msg alt st : String)
    (e : Option String) (rs : Result) :
    ((r.AddInfo msg).Data = r.Data ∧ (r.AddInfo msg).result = r.result.AddInfo msg)
  ∧ ((r.AddWarning msg).Data = r.Data ∧ (r.AddWarning msg).result = r.result.AddWarning msg)
  ∧ ((r.AddError msg).Data = r.Data ∧ (r.AddError msg).result = r.result.AddError msg)
  ∧ ((r.AddErr e).Data = r.Data ∧ (r.AddErr e).result = r.result.AddErr e)
  ∧ ((r.AddSuccess msg).Data = r.Data ∧ (r.AddSuccess msg).result = r.result.AddSuccess msg)
  ∧ ((r.Stuff rs).Data = r.Data ∧ (r.Stuff rs).result = r.result.Stuff rs)
  ∧ ((r.AddErrWithAlt e alt).Data = r.Data
      ∧ (r.AddErrWithAlt e alt).result = r.result.AddErrWithAlt e alt)
  ∧ ((r.AddErrorWithAlt rs alt).Data = r.Data
      ∧ (r.AddErrorWithAlt rs alt).result = r.result.AddErrorWithAlt rs alt)
  ∧ ((r.Return st).Data = r.Data ∧ (r.Return st).result = r.result.Return st) :=
  ⟨⟨rfl, rfl⟩, ⟨rfl, rfl⟩, ⟨rfl, rfl⟩, ⟨rfl, rfl⟩, ⟨rfl, rfl⟩, ⟨rfl, rfl⟩, ⟨rfl, rfl⟩,
    ⟨rfl, rfl⟩, ⟨rfl, rfl⟩⟩

/-- C10: `Return(s)` sets the status and changes nothing else: every other
field of the envelope is unchanged, and the returned value is the mutated
receiver itself. -/
theorem c10_return_frame (r : Result) (s : String) :
    (r.Return s).Status = s
  ∧ (r.Return s).Messages = r.Messages
  ∧ (r.Return s).Operation = r.Operation
  ∧ (r.Return s).TaskID = r.TaskID
  ∧ (r.Return s).WorkerID = r.WorkerID
  ∧ (r.Return s).FocusControl = r.FocusControl
  ∧ (r.Return s).Page = r.Page
  ∧ (r.Return s).PageCount = r.PageCount
  ∧ (r.Return s).PageSize = r.PageSize
  ∧ (r.Return s).Tag = r.Tag
  ∧ (r.Return s).Pfx = r.Pfx
  ∧ (r.Return s).ln = r.ln
  ∧ (r.Return s).eventVerb = r.eventVerb
  ∧ (r.Return s).osIsWin = r.osIsWin
  ∧ (r.Return s).useOperationInMsg = r.useOperationInMsg
  ∧ (r.Return s).initFc = r.initFc
  ∧ r.Return s = { r with Status := s } :=
  ⟨rfl, rfl, rfl, rfl, rfl, rfl, rfl, rfl, rfl, rfl, rfl, rfl, rfl, rfl, rfl, rfl, rfl⟩

/-- C2: the claim fails on the code. An envelope constructed with the
`UseOperationInMessage(true)` option and a detected operation name stores
plain, unprefixed messages through all four add methods, because
`InitResult` never copies the option into the envelope's private
use-operation flag. -/
theorem c2_flag_never_wired :
    c2Env.Operation = "doit"
  ∧ c2Env.useOperationInMsg = false
  ∧ (c2Env.AddInfo "hello").ln.Notes.map LogInfo.Message = ["hello"]
  ∧ (c2Env.AddWarning "hello").ln.Notes.map LogInfo.Message = ["hello"]
  ∧ (c2Env.AddError "hello").ln.Notes.map LogInfo.Message = ["hello"]
  ∧ (c2Env.AddSuccess "hello").ln.Notes.map LogInfo.Message = ["hello"] := by
  decide

/-- C4: `AddErrorWithAlt(other, altMsg, ...)`: a non-success `other`
contributes exactly its own notes, in order, and nothing else; a
success-state `other` with non-empty `altMsg` contributes exactly one
directly-built Error note carrying `altMsg` with no operation prefixing;
a success-state `other` with empty `altMsg` leaves the receiver
unchanged. -/
theorem c4_addErrorWithAlt_cases (r rs : Result) (alt : String) :
    ((rs.OK || rs.Valid) = false →
        (r.AddErrorWithAlt rs alt).ln.Notes = r.ln.Notes ++ rs.ln.Notes)
  ∧ ((rs.OK || rs.Valid) = true → alt ≠ "" →
        (r.AddErrorWithAlt rs alt).ln.Notes
          = r.ln.Notes ++ [⟨NoteType.Error, alt, r.ln.Pfx⟩])
  ∧ ((rs.OK || rs.Valid) = true → alt = "" → r.AddErrorWithAlt rs alt = r) := by
  refine ⟨?_, ?_, ?_⟩
  · intro hf
    simp [Result.AddErrorWithAlt, hf, foldl_Append, Result.updateMessage, Log.Notes]
  · intro ht ha
    simp [Result.AddErrorWithAlt, ht, ha, Result.updateMessage, Log.Append, Log.Notes]
  · intro ht ha
    simp [Result.AddErrorWithAlt, ht, ha]

/-- C4 witness: the three cases evaluated on concrete envelopes. -/
theorem c4_witness :
    (sampleRecv.AddErrorWithAlt sampleFail "z").ln.Notes
        = sampleRecv.ln.Notes ++ sampleFail.ln.Notes
  ∧ (sampleRecv.AddErrorWithAlt sampleOkRes "z").ln.Notes
        = sampleRecv.ln.Notes ++ [⟨NoteType.Error, "z", sampleRecv.ln.Pfx⟩]
  ∧ sampleRecv.AddErrorWithAlt sampleOkRes "" = sampleRecv :=
  ⟨(c4_addErrorWithAlt_cases sampleRecv sampleFail "z").1 (by decide),
    (c4_addErrorWithAlt_cases sampleRecv sampleOkRes "z").2.1 (by decide) (by decide),
    (c4_addErrorWithAlt_cases sampleRecv sampleOkRes "").2.2 (by decide) rfl⟩

/-- InitResult rewritten in explicit form: the constructed envelope is
`initBase` with the configured message, optionally operation-prefixed,
routed by status family on top of it. -/
theorem initResult_eq (osWin : Bool) (cop : Option String) (irp : InitResultParam) :
    InitResult osWin cop irp =
      (if irp.Message ≠ "" then
        match irp.Status with
        | "OK" | "VALID" | "YES" => (initBase osWin cop irp).AddInfo (routedMsg cop irp)
        | "EXCEPTION" | "INVALID" | "NO" => (initBase osWin cop irp).AddError (routedMsg cop irp)
        | _ => { initBase osWin cop irp with
                  ln := (initBase osWin cop irp).ln.AddAppMsg (routedMsg cop irp) }
      else initBase osWin cop irp) := by
  unfold InitResult initBase routedMsg detectedOp Result.SetPfx Result.SetFocusControl
  cases cop with
  | none =>
    by_cases hs : irp.Status = "" <;> simp [hs]
  | some nm =>
    by_cases hs : irp.Status = "" <;> by_cases hev : irp.EventVerb = "" <;>
      simp [hs, hev]

/-- C1 counterexample: constructing with an initial message and the
default (empty) status routes the message through the plain-application
branch, which appends to the log without refreshing the cache, so
`Messages` does not equal the rendered log. -/
theorem c1_counterexample : ¬ cacheOK c1Env := by
  unfold cacheOK
  decide

/-- C1 (amended): the cache invariant — `Messages` equals the rendered
form of the internal log, entry for entry and in order — holds after
construction and after every sequence of add/append/merge operations,
provided construction did not route a non-empty initial message through
the plain-application branch (i.e. the message is empty or the configured
status is one of the six enumeration values); in particular the length of
`Messages` equals the number of log entries. -/
theorem c1_cache_invariant (osWin : Bool) (cop : Option String) (irp : InitResultParam)
    (ops : List MutOp)
    (h : irp.Message = ""
      ∨ irp.Status ∈ (["OK", "VALID", "YES", "EXCEPTION", "INVALID", "NO"] : List String)) :
    cacheOK (ops.foldl applyOp (InitResult osWin cop irp))
  ∧ (ops.foldl applyOp (InitResult osWin cop irp)).Messages.length
      = (ops.foldl applyOp (InitResult osWin cop irp)).ln.Notes.length := by
  have h0 : cacheOK (InitResult osWin cop irp) := by
    rw [initResult_eq]
    by_cases hm : irp.Message = ""
    · rw [if_neg (by simp [hm])]
      simp [cacheOK, initBase, Log.Notes]
    · rw [if_pos hm]
      rcases h with h | h
      · exact absurd h hm
      · simp only [List.mem_cons, List.not_mem_nil, or_false] at h
        rcases h with h | h | h | h | h | h <;> rw [h] <;>
          exact cacheOK_updateMessage _
  have hc := cacheOK_foldl ops _ h0
  refine ⟨hc, ?_⟩
  have hcc := hc
  simp only [cacheOK] at hcc
  rw [hcc, List.length_map]

/-- C1 witness: the amended invariant evaluated after constructing with
status OK and message "m" and running two further add operations. -/
theorem c1_witness :
    cacheOK (List.foldl applyOp (InitResult false none { Status := "OK", Message := "m" })
        [MutOp.info "x", MutOp.raw "y"])
  ∧ (List.foldl applyOp (InitResult false none { Status := "OK", Message := "m" })
        [MutOp.info "x", MutOp.raw "y"]).Messages.length
      = (List.foldl applyOp (InitResult false none { Status := "OK", Message := "m" })
        [MutOp.info "x", MutOp.raw "y"]).ln.Notes.length :=
  c1_cache_invariant false none { Status := "OK", Message := "m" }
    [MutOp.info "x", MutOp.raw "y"] (Or.inr (by decide))

/-- C3: a non-empty initial message is routed by configured status family
(OK/VALID/YES to one Info note, EXCEPTION/INVALID/NO to one Error note,
anything else to one plain application note), after the optional
`" <operation>: "` prefixing captured by `routedMsg`. -/
theorem c3_initial_message_routing (osWin : Bool) (cop : Option String) (irp : InitResultParam)
    (hm : irp.Message ≠ "") :
    ((irp.Status = "OK" ∨ irp.Status = "VALID" ∨ irp.Status = "YES") →
        (InitResult osWin cop irp).ln.Notes
          = [⟨NoteType.Info, routedMsg cop irp, irp.Pfx⟩])
  ∧ ((irp.Status = "EXCEPTION" ∨ irp.Status = "INVALID" ∨ irp.Status = "NO") →
        (InitResult osWin cop irp).ln.Notes
          = [⟨NoteType.Error, routedMsg cop irp, irp.Pfx⟩])
  ∧ (irp.Status ∉ (["OK", "VALID", "YES", "EXCEPTION", "INVALID", "NO"] : List String) →
        (InitResult osWin cop irp).ln.Notes
          = [⟨NoteType.App, routedMsg cop irp, irp.Pfx⟩]) := by
  rw [initResult_eq, if_pos hm]
  refine ⟨?_, ?_, ?_⟩
  · intro h
    rcases h with h | h | h <;> rw [h] <;>
      simp [Result.AddInfo, Result.updateMessage, Result.opMsg, initBase,
        Log.AddInfo, Log.Append, Log.Notes]
  · intro h
    rcases h with h | h | h <;> rw [h] <;>
      simp [Result.AddError, Result.updateMessage, Result.opMsg, initBase,
        Log.AddError, Log.Append, Log.Notes]
  · intro h
    simp only [List.mem_cons, List.not_mem_nil, or_false, not_or] at h
    obtain ⟨h1, h2, h3, h4, h5, h6⟩ := h
    split
    · exact absurd (by assumption) h1
    · exact absurd (by assumption) h2
    · exact absurd (by assumption) h3
    · exact absurd (by assumption) h4
    · exact absurd (by assumption) h5
    · exact absurd (by assumption) h6
    · simp [initBase, Log.AddAppMsg, Log.Append, Log.Notes]

/-- C3 witness: routing evaluated with status OK and message "m". -/
theorem c3_witness :
    (InitResult false none { Status := "OK", Message := "m" }).ln.Notes
      = [⟨NoteType.Info, routedMsg none { Status := "OK", Message := "m" }, ""⟩] :=
  (c3_initial_message_routing false none { Status := "OK", Message := "m" } (by decide)).1
    (Or.inl rfl)

/-- C7: constructing with no options yields status EXCEPTION and an empty
`Messages` cache; in general the initial status is the configured one when
non-empty and EXCEPTION otherwise; and constructing with status OK and
message "saved" yields exactly one Info-severity note whose message is
"saved", optionally operation-prefixed. -/
theorem c7_construction_defaults (osWin : Bool) (cop : Option String) (irp : InitResultParam) :
    ((InitResult osWin cop {}).Status = "EXCEPTION"
      ∧ (InitResult osWin cop {}).Messages = [])
  ∧ ((InitResult osWin cop irp).Status = if irp.Status ≠ "" then irp.Status else "EXCEPTION")
  ∧ (InitResult osWin cop { irp with Status := "OK", Message := "saved" }).ln.Notes
      = [⟨NoteType.Info,
            (if irp.UseOperationInMsg ∧ detectedOp cop ≠ "" then
              " " ++ detectedOp cop ++ ": " ++ "saved"
            else "saved"),
          irp.Pfx⟩] := by
  refine ⟨⟨?_, ?_⟩, ?_, ?_⟩
  · rw [initResult_eq]
    simp [initBase]
  · rw [initResult_eq]
    simp [initBase]
  · rw [initResult_eq]
    by_cases hm : irp.Message = ""
    · rw [if_neg (by simp [hm])]
      simp [initBase]
    · rw [if_pos hm]
      split <;>
        simp [Result.AddInfo, Result.AddError, Result.updateMessage, initBase]
  · rw [initResult_eq]
    rw [if_pos (by simp)]
    simp [Result.AddInfo, Result.updateMessage, Result.opMsg, initBase, routedMsg,
      Log.AddInfo, Log.Append, Log.Notes]

/-- Appending strings concatenates their character data. -/
theorem str_data_append (a b : String) : (a ++ b).data = a.data ++ b.data :=
  rfl

/-- When a prefix of a cons-list equals the separator, the head character
belongs to the separator. -/
theorem head_mem_of_take_eq {x : Char} {xs sep : List Char} (hs : sep ≠ [])
    (ht : (x :: xs).take sep.length = sep) : x ∈ sep := by
  cases sep with
  | nil => exact absurd rfl hs
  | cons s ss =>
    have hx : x = s := by
      have h1 : x :: xs.take ss.length = s :: ss := by
        simpa [List.take_succ_cons] using ht
      exact (List.cons.injEq _ _ _ _ ▸ h1).1
    simp [hx]

/-- splitGo does not depend on the fuel, as long as the fuel covers the
input length and the separator is non-empty. -/
theorem splitGo_fuel_irrel (sep : List Char) (hs : sep ≠ []) :
    ∀ f1 f2 l acc, l.length ≤ f1 → l.length ≤ f2 →
      splitGo sep f1 l acc = splitGo sep f2 l acc := by
  have hsl : 1 ≤ sep.length := by
    cases sep with
    | nil => exact absurd rfl hs
    | cons s ss => simp
  intro f1
  induction f1 with
  | zero =>
    intro f2 l acc h1 _
    have hl : l = [] := List.eq_nil_of_length_eq_zero (Nat.le_zero.mp h1)
    subst hl
    cases f2 <;> rfl
  | succ f ih =>
    intro f2 l acc h1 h2
    cases l with
    | nil => cases f2 <;> rfl
    | cons c cs =>
      cases f2 with
      | zero => simp at h2
      | succ g =>
        simp only [splitGo]
        by_cases hc : (c :: cs).take sep.length = sep
        · rw [if_pos hc, if_pos hc]
          have hd1 : ((c :: cs).drop sep.length).length ≤ f := by
            simp only [List.length_drop, List.length_cons] at *
            omega
          have hd2 : ((c :: cs).drop sep.length).length ≤ g := by
            simp only [List.length_drop, List.length_cons] at *
            omega
          rw [ih g _ [] hd1 hd2]
        · rw [if_neg hc, if_neg hc]
          exact ih g cs (c :: acc)
            (by simp only [List.length_cons] at h1 ⊢; omega)
            (by simp only [List.length_cons] at h2 ⊢; omega)

/-- splitGo leaves a separator-free segment whole. -/
theorem splitGo_no_occ (sep : List Char) (hs : sep ≠ []) :
    ∀ (m : List Char) (fuel : Nat) (acc : List Char),
      (∀ c ∈ m, c ∉ sep) → m.length ≤ fuel →
      splitGo sep fuel m acc = [acc.reverse ++ m] := by
  intro m
  induction m with
  | nil =>
    intro fuel acc _ _
    cases fuel <;> simp [splitGo]
  | cons c cs ih =>
    intro fuel acc hm hl
    cases fuel with
    | zero => simp at hl
    | succ f =>
      have hc : ¬((c :: cs).take sep.length = sep) := fun ht =>
        hm c (by simp) (head_mem_of_take_eq hs ht)
      simp only [splitGo]
      rw [if_neg hc]
      rw [ih f (c :: acc) (fun x hx => hm x (by simp [hx]))
        (by simp only [List.length_cons] at hl ⊢; omega)]
      simp

/-- splitGo cuts exactly at the first separator occurrence when the
segment before it is separator-free. -/
theorem splitGo_seg (sep : List Char) (hs : sep ≠ []) :
    ∀ (m : List Char) (fuel : Nat) (rest acc : List Char),
      (∀ c ∈ m, c ∉ sep) → (m ++ (sep ++ rest)).length ≤ fuel →
      splitGo sep fuel (m ++ (sep ++ rest)) acc
        = (acc.reverse ++ m) :: splitGo sep rest.length rest [] := by
  intro m
  induction m with
  | nil =>
    intro fuel rest acc _ hl
    simp only [List.nil_append] at hl ⊢
    cases fuel with
    | zero =>
      exfalso
      cases sep with
      | nil => exact absurd rfl hs
      | cons s ss => simp at hl
    | succ f =>
      cases sep with
      | nil => exact absurd rfl hs
      | cons s ss =>
        simp only [List.cons_append, splitGo, List.append_eq]
        have hc : (s :: (ss ++ rest)).take (s :: ss).length = s :: ss :=
          List.take_left (s :: ss) rest
        rw [if_pos hc]
        have hd : (s :: (ss ++ rest)).drop (s :: ss).length = rest :=
          List.drop_left (s :: ss) rest
        rw [hd]
        have hrest : rest.length ≤ f := by
          simp only [List.cons_append, List.length_cons, List.length_append] at hl
          omega
        rw [splitGo_fuel_irrel (s :: ss) hs f rest.length rest [] hrest (le_refl _)]
        simp
  | cons c cs ih =>
    intro fuel rest acc hm hl
    cases fuel with
    | zero => simp at hl
    | succ f =>
      simp only [List.cons_append, splitGo, List.append_eq]
      have hc : ¬((c :: (cs ++ (sep ++ rest))).take sep.length = sep) := fun ht =>
        hm c (by simp) (head_mem_of_take_eq hs ht)
      rw [if_neg hc]
      rw [ih f rest (c :: acc) (fun x hx => hm x (by simp [hx]))
        (by simp only [List.cons_append, List.length_cons, List.length_append] at hl ⊢; omega)]
      simp

/-- splitSep undoes joinTrail up to one trailing empty segment, when no
segment contains a separator character. -/
theorem splitSep_joinTrail (sep : List Char) (hs : sep ≠ [])
    (ms : List (List Char)) (hms : ∀ m ∈ ms, ∀ c ∈ m, c ∉ sep) :
    splitSep sep (joinTrail sep ms) = ms ++ [[]] := by
  induction ms with
  | nil => simp [splitSep, joinTrail, splitGo]
  | cons m ms ih =>
    unfold splitSep
    rw [joinTrail, List.append_assoc]
    rw [splitGo_seg sep hs m _ (joinTrail sep ms) [] (hms m (by simp)) (le_refl _)]
    have ihh := ih (fun x hx => hms x (by simp [hx]))
    unfold splitSep at ihh
    rw [ihh]
    simp

/-- The builder loop of `MessagesToString` produces, at the character
level, every entry followed by the terminator, concatenated in order. -/
theorem foldl_build_data (lf : String) (ms : List String) (s : String) :
    (List.foldl (fun sb v => sb ++ (v ++ lf)) s ms).data
      = s.data ++ joinTrail lf.data (ms.map String.data) := by
  induction ms generalizing s with
  | nil => simp [joinTrail]
  | cons m ms ih =>
    simp only [List.foldl_cons, List.map_cons, joinTrail]
    rw [ih]
    simp [str_data_append, List.append_assoc]

/-- C5 counterexample: with two cached messages on a non-Windows
envelope, the rendered string carries a terminator after every entry, so
re-splitting it on the terminator does not recover the original
`Messages` sequence (an empty trailing entry appears). -/
theorem c5_counterexample :
    strSplit c5Env.lineTerm c5Env.MessagesToString ≠ c5Env.Messages := by
  decide

/-- C5 (amended): when the cache is empty, `MessagesToString` returns the
log's own rendering; a single cached message is returned verbatim, so
re-splitting recovers it; with two or more cached messages the builder
appends the construction-time terminator after every entry, so
re-splitting on the terminator recovers the original sequence followed by
one empty entry — all provided no cached message contains a character of
the terminator. -/
theorem c5_messagesToString_split (r : Result)
    (h : ∀ m ∈ r.Messages, ∀ c ∈ m.data, c ∉ r.lineTerm.data) :
    (r.Messages = [] → r.MessagesToString = r.ln.ToString)
  ∧ (∀ m, r.Messages = [m] → strSplit r.lineTerm r.MessagesToString = [m])
  ∧ (2 ≤ r.Messages.length →
      strSplit r.lineTerm r.MessagesToString = r.Messages ++ [""]) := by
  have hlt : r.lineTerm.data ≠ [] := by
    unfold Result.lineTerm
    split <;> decide
  refine ⟨?_, ?_, ?_⟩
  · intro he
    simp only [Result.MessagesToString, he]
  · intro m hm
    simp only [Result.MessagesToString, hm]
    unfold strSplit splitSep
    rw [splitGo_no_occ r.lineTerm.data hlt m.data m.data.length []
      (fun c hc => h m (by rw [hm]; simp) c hc) (le_refl _)]
    rfl
  · intro h2
    obtain ⟨m1, m2, rest, hms⟩ : ∃ m1 m2 rest, r.Messages = m1 :: m2 :: rest := by
      cases hx : r.Messages with
      | nil => rw [hx] at h2; simp at h2
      | cons a t =>
        cases t with
        | nil => rw [hx] at h2; simp at h2
        | cons b u => exact ⟨a, b, u, rfl⟩
    simp only [Result.MessagesToString, hms]
    unfold strSplit
    have hdata : (List.foldl (fun sb v => sb ++ (v ++ r.lineTerm)) "" (m1 :: m2 :: rest)).data
        = joinTrail r.lineTerm.data ((m1 :: m2 :: rest).map String.data) := by
      rw [foldl_build_data]
      rfl
    rw [hdata]
    have hsplit := splitSep_joinTrail r.lineTerm.data hlt
      ((m1 :: m2 :: rest).map String.data)
      (by
        intro md hmd c hc
        simp only [List.map_cons, List.mem_cons, List.mem_map] at hmd
        rcases hmd with h1 | h1 | ⟨x, hx, h1⟩
        · exact h m1 (by rw [hms]; simp) c (h1 ▸ hc)
        · exact h m2 (by rw [hms]; simp) c (h1 ▸ hc)
        · exact h x (by rw [hms]; simp [hx]) c (h1 ▸ hc))
    rw [hsplit]
    have hmk : ∀ x : String, String.mk x.data = x := fun x => rfl
    have hco : (String.mk ∘ String.data) = id := funext fun x => rfl
    simp [hms, List.map_map, hco, hmk]

/-- C5 witness: the amended round-trip evaluated on the concrete
two-message envelope. -/
theorem c5_witness :
    strSplit c5Env.lineTerm c5Env.MessagesToString = c5Env.Messages ++ [""] :=
  (c5_messagesToString_split c5Env (by decide)).2.2 (by decide)
